import Mathlib

/-!
# Verification of the `llama-parse` client (`src/index.ts`)

Shallow embedding of the `LlamaParse` TypeScript client: a remote
document-parsing client that uploads a file, polls a job-status endpoint,
and fetches a markdown result.  HTTP interaction is modelled by passing the
server's responses explicitly; `parseFile` is run against a `Server` record
holding the upload response, the (finite prefix of the) successive status
responses, and the result response, and it returns the trace of observable
events (calls and delays) together with its outcome.
-/

/-- Job status enum: `"PENDING" | "SUCCESS" | "FAILED"` in `index.ts`. -/
inductive Status where
  | PENDING
  | SUCCESS
  | FAILED
deriving DecidableEq, Repr

/-- `UploadResponse` interface: `{ id: string; status }`. -/
structure UploadResponse where
  id : String
  status : Status
deriving DecidableEq, Repr

/-- `JobStatus` interface: `{ status; error?: string }`. -/
structure JobStatus where
  status : Status
  error : Option String
deriving DecidableEq, Repr

/-- `MarkdownResult.job_metadata` object of `index.ts`. -/
structure JobMetadata where
  credits_used : Int
  job_credits_usage : Int
  job_pages : Int
  job_auto_mode_triggered_pages : Int
  job_is_cache_hit : Bool
  credits_max : Int
deriving DecidableEq, Repr

/-- `MarkdownResult` interface: `{ markdown: string; job_metadata }`. -/
structure MarkdownResult where
  markdown : String
  job_metadata : JobMetadata
deriving DecidableEq, Repr

/-- An HTTP response carrying a parsed JSON body of type `α`.
`status` is the numeric HTTP status code, `statusText` the reason phrase. -/
structure HttpResp (α : Type) where
  status : Nat
  statusText : String
  body : α
deriving DecidableEq, Repr

/-- The fetch API's `Response.ok`: true exactly when the status is 2xx. -/
def HttpResp.ok {α : Type} (r : HttpResp α) : Bool :=
  decide (200 ≤ r.status ∧ r.status ≤ 299)

/-- Error taxonomy.  Each constructor corresponds to one `throw new Error(...)`
site in `index.ts` and carries the thrown message string. -/
inductive LPError where
  | ConfigError (msg : String)
  | UploadError (msg : String)
  | StatusCheckError (msg : String)
  | ResultFetchError (msg : String)
  | ParseFailedError (msg : String)
deriving DecidableEq, Repr

/-- `LlamaParseConfig`: `apiKey: string` (modelled as `Option` so that a
missing key can be distinguished from an empty one, matching the JS falsiness
check `!config.apiKey`), `baseUrl?: string`, `headers?: HeadersInit`
(modelled as an association list of header name/value pairs). -/
structure LlamaParseConfig where
  apiKey : Option String
  baseUrl : Option String
  headers : Option (List (String × String))
deriving DecidableEq, Repr

/-- The constructed client state: `private baseUrl` and `private headers`. -/
structure LlamaParse where
  baseUrl : String
  headers : List (String × String)
deriving DecidableEq, Repr

/-- JS falsiness of an optional string: `undefined` and `""` are falsy. -/
def strFalsy : Option String → Bool
  | none => true
  | some s => s == ""

/-- The default base URL from `index.ts` line 53. -/
def defaultBaseUrl : String := "https://api.cloud.llamaindex.ai/api/parsing"

/-- The default headers built by the constructor:
`Authorization: Bearer <apiKey>` and `accept: application/json`. -/
def defaultHeaders (apiKey : String) : List (String × String) :=
  [("Authorization", "Bearer " ++ apiKey), ("accept", "application/json")]

/-- JS object spread `{ ...defaults, ...caller }` semantics on association
lists with record-like lookup: a default entry survives only if no caller
entry has the same key; caller entries follow. -/
def mergeHeaders (defaults caller : List (String × String)) : List (String × String) :=
  defaults.filter (fun d => caller.all (fun c => c.1 != d.1)) ++ caller

/-- Header lookup: the value of the first entry with the given name. -/
def headerValue (hs : List (String × String)) (k : String) : Option String :=
  (hs.find? (fun p => p.1 == k)).map (fun p => p.2)

/-- The `LlamaParse` constructor (`index.ts` lines 50–59):
`if (!config.apiKey) throw new Error("API key is required")`, then
`baseUrl = config.baseUrl || default` and
`headers = { Authorization, accept, ...config.headers }`. -/
def LlamaParse.construct (cfg : LlamaParseConfig) : Except LPError LlamaParse :=
  if strFalsy cfg.apiKey then
    Except.error (LPError.ConfigError "API key is required")
  else
    Except.ok
      { baseUrl := if strFalsy cfg.baseUrl then defaultBaseUrl else cfg.baseUrl.getD defaultBaseUrl
        headers := mergeHeaders (defaultHeaders (cfg.apiKey.getD "")) (cfg.headers.getD []) }

/-- An outgoing HTTP request as built by the client. -/
structure Request where
  method : String
  url : String
  headers : List (String × String)
deriving DecidableEq, Repr

/-- The upload request: `POST {baseUrl}/upload` with the client headers. -/
def LlamaParse.uploadRequest (c : LlamaParse) : Request :=
  { method := "POST", url := c.baseUrl ++ "/upload", headers := c.headers }

/-- The status request: `GET {baseUrl}/job/{jobId}` with the client headers. -/
def LlamaParse.statusRequest (c : LlamaParse) (jobId : String) : Request :=
  { method := "GET", url := c.baseUrl ++ "/job/" ++ jobId, headers := c.headers }

/-- The result request: `GET {baseUrl}/job/{jobId}/result/markdown`. -/
def LlamaParse.resultRequest (c : LlamaParse) (jobId : String) : Request :=
  { method := "GET", url := c.baseUrl ++ "/job/" ++ jobId ++ "/result/markdown",
    headers := c.headers }

/-- `uploadFile` response handling (`index.ts` lines 98–103): on `!response.ok`
throw `Upload failed: ${statusText}`, otherwise return `data.id`. -/
def uploadFile (resp : HttpResp UploadResponse) : Except LPError String :=
  if resp.ok then Except.ok resp.body.id
  else Except.error (LPError.UploadError ("Upload failed: " ++ resp.statusText))

/-- `checkStatus` response handling (`index.ts` lines 117–121): on
`!response.ok` throw `Status check failed: ${statusText}`, otherwise return
the parsed JSON body unchanged. -/
def checkStatus (resp : HttpResp JobStatus) : Except LPError JobStatus :=
  if resp.ok then Except.ok resp.body
  else Except.error (LPError.StatusCheckError ("Status check failed: " ++ resp.statusText))

/-- `getMarkdownResult` response handling (`index.ts` lines 135–139): on
`!response.ok` throw `Failed to get results: ${statusText}`, otherwise return
the parsed JSON body. -/
def getMarkdownResult (resp : HttpResp MarkdownResult) : Except LPError MarkdownResult :=
  if resp.ok then Except.ok resp.body
  else Except.error (LPError.ResultFetchError ("Failed to get results: " ++ resp.statusText))

/-- Observable events of a `parseFile` run: the upload call, each
`checkStatus(jobId)` call, each 1-second `setTimeout` delay, and each
`getMarkdownResult(jobId)` call. -/
inductive Ev where
  | upload
  | checkStatus (jobId : String)
  | delay
  | getResult (jobId : String)
deriving DecidableEq, Repr

/-- A mock server: the upload response, the successive status responses the
mock will give (a finite prefix; if `parseFile` polls past the end the run
is modelled as divergent), and the result response. -/
structure Server where
  uploadResp : HttpResp UploadResponse
  statusResps : List (HttpResp JobStatus)
  resultResp : HttpResp MarkdownResult
deriving DecidableEq, Repr

/-- The `do { status = checkStatus(jobId); sleep(1000) } while (PENDING)` loop
of `parseFile` (`index.ts` lines 70–73), run against the list of successive
status responses.  Returns the event trace and `some` terminal outcome, or
`none` when the response list is exhausted while still PENDING (the real
loop would keep polling). -/
def pollLoop (jobId : String) : List (HttpResp JobStatus) → List Ev × Option (Except LPError JobStatus)
  | [] => ([], none)
  | r :: rs =>
    match checkStatus r with
    | Except.error e => ([Ev.checkStatus jobId], some (Except.error e))
    | Except.ok st =>
      if st.status = Status.PENDING then
        let p := pollLoop jobId rs
        (Ev.checkStatus jobId :: Ev.delay :: p.1, p.2)
      else
        ([Ev.checkStatus jobId, Ev.delay], some (Except.ok st))

/-- JS template-literal rendering of `status.error` (an optional string):
`undefined` prints as `"undefined"`. -/
def jsTemplateStr : Option String → String
  | none => "undefined"
  | some s => s

/-- `parseFile` (`index.ts` lines 66–80): upload, poll until non-PENDING,
then throw `Parsing failed: ${status.error}` unless the status is SUCCESS,
else fetch the markdown result.  Returns the event trace together with the
outcome (`none` = the poll loop did not terminate on the given responses). -/
def parseFile (srv : Server) : List Ev × Option (Except LPError MarkdownResult) :=
  match uploadFile srv.uploadResp with
  | Except.error e => ([Ev.upload], some (Except.error e))
  | Except.ok jobId =>
    let p := pollLoop jobId srv.statusResps
    match p.2 with
    | none => (Ev.upload :: p.1, none)
    | some (Except.error e) => (Ev.upload :: p.1, some (Except.error e))
    | some (Except.ok st) =>
      if st.status ≠ Status.SUCCESS then
        (Ev.upload :: p.1,
          some (Except.error (LPError.ParseFailedError
            ("Parsing failed: " ++ jsTemplateStr st.error))))
      else
        match getMarkdownResult srv.resultResp with
        | Except.error e => (Ev.upload :: p.1 ++ [Ev.getResult jobId], some (Except.error e))
        | Except.ok res => (Ev.upload :: p.1 ++ [Ev.getResult jobId], some (Except.ok res))

/-- Is this event a `checkStatus` call? -/
def isCheckEv : Ev → Bool
  | Ev.checkStatus _ => true
  | _ => false

/-- Is this event a 1-second delay? -/
def isDelayEv : Ev → Bool
  | Ev.delay => true
  | _ => false

/-- Is this event a result-fetch call? -/
def isResultEv : Ev → Bool
  | Ev.getResult _ => true
  | _ => false

/-- Number of `checkStatus` calls in a trace. -/
def countCheck (evs : List Ev) : Nat := (evs.filter isCheckEv).length

/-- Number of delays in a trace. -/
def countDelay (evs : List Ev) : Nat := (evs.filter isDelayEv).length

/-- Number of result-fetch calls in a trace. -/
def countResult (evs : List Ev) : Nat := (evs.filter isResultEv).length

/-- Every `checkStatus` event in the trace is immediately followed by a
delay event. -/
def everyCheckDelayed : List Ev → Bool
  | [] => true
  | Ev.checkStatus _ :: es =>
    (match es with
     | Ev.delay :: _ => true
     | _ => false) && everyCheckDelayed es
  | _ :: es => everyCheckDelayed es

/-- The event trace produced by `n + 1` polls:
`n + 1` copies of `[checkStatus jobId, delay]`. -/
def pollEvs : Nat → String → List Ev
  | 0, j => [Ev.checkStatus j, Ev.delay]
  | n + 1, j => Ev.checkStatus j :: Ev.delay :: pollEvs n j

/-! ## Helper lemmas on the polling loop and traces -/

theorem pollLoop_eq (j : String) (pend : List (HttpResp JobStatus))
    (term : HttpResp JobStatus) (rest : List (HttpResp JobStatus))
    (hp : ∀ r ∈ pend, r.ok = true ∧ r.body.status = Status.PENDING)
    (ht : term.ok = true) (hnt : term.body.status ≠ Status.PENDING) :
    pollLoop j (pend ++ term :: rest) = (pollEvs pend.length j, some (Except.ok term.body)) := by
  induction pend with
  | nil =>
    simp only [List.nil_append, pollLoop, checkStatus, ht, if_true, List.length_nil, pollEvs]
    rw [if_neg hnt]
  | cons r rs ih =>
    have hr := hp r (List.mem_cons_self r rs)
    have hrest : ∀ x ∈ rs, x.ok = true ∧ x.body.status = Status.PENDING :=
      fun x hx => hp x (List.mem_cons_of_mem r hx)
    simp only [List.cons_append, pollLoop, checkStatus, hr.1, if_true, hr.2,
      List.append_eq, ih hrest, List.length_cons, pollEvs]

theorem countCheck_pollEvs (n : Nat) (j : String) :
    countCheck (pollEvs n j) = n + 1 := by
  induction n with
  | zero => rfl
  | succ n ih =>
    simp only [pollEvs, countCheck, List.filter, isCheckEv] at ih ⊢
    simpa using ih

theorem countDelay_pollEvs (n : Nat) (j : String) :
    countDelay (pollEvs n j) = n + 1 := by
  induction n with
  | zero => rfl
  | succ n ih =>
    simp only [pollEvs, countDelay, List.filter, isDelayEv] at ih ⊢
    simpa using ih

theorem countResult_pollEvs (n : Nat) (j : String) :
    countResult (pollEvs n j) = 0 := by
  induction n with
  | zero => rfl
  | succ n ih =>
    simp only [pollEvs, countResult, List.filter, isResultEv] at ih ⊢
    simpa using ih

theorem countCheck_append (a b : List Ev) :
    countCheck (a ++ b) = countCheck a + countCheck b := by
  simp [countCheck, List.filter_append]

theorem countDelay_append (a b : List Ev) :
    countDelay (a ++ b) = countDelay a + countDelay b := by
  simp [countDelay, List.filter_append]

theorem countResult_append (a b : List Ev) :
    countResult (a ++ b) = countResult a + countResult b := by
  simp [countResult, List.filter_append]

theorem everyCheckDelayed_pollEvs_append (n : Nat) (j : String) (l : List Ev) :
    everyCheckDelayed (pollEvs n j ++ l) = everyCheckDelayed l := by
  induction n with
  | zero => simp [pollEvs, everyCheckDelayed]
  | succ n ih =>
    simp only [pollEvs, List.cons_append, List.append_eq, everyCheckDelayed] at ih ⊢
    rw [ih]
    cases n <;> simp [pollEvs]

theorem countCheck_upload_cons (l : List Ev) :
    countCheck (Ev.upload :: l) = countCheck l := by
  simp [countCheck, isCheckEv]

theorem countDelay_upload_cons (l : List Ev) :
    countDelay (Ev.upload :: l) = countDelay l := by
  simp [countDelay, isDelayEv]

theorem countResult_upload_cons (l : List Ev) :
    countResult (Ev.upload :: l) = countResult l := by
  simp [countResult, isResultEv]

theorem parseFile_eq_of_success (srv : Server) (pend : List (HttpResp JobStatus))
    (term : HttpResp JobStatus) (rest : List (HttpResp JobStatus))
    (hup : srv.uploadResp.ok = true)
    (hs : srv.statusResps = pend ++ term :: rest)
    (hp : ∀ r ∈ pend, r.ok = true ∧ r.body.status = Status.PENDING)
    (ht : term.ok = true) (hterm : term.body.status = Status.SUCCESS)
    (hres : srv.resultResp.ok = true) :
    parseFile srv =
      (Ev.upload :: (pollEvs pend.length srv.uploadResp.body.id ++
        [Ev.getResult srv.uploadResp.body.id]),
       some (Except.ok srv.resultResp.body)) := by
  have hnt : term.body.status ≠ Status.PENDING := by
    rw [hterm]; intro h; cases h
  have hpoll := pollLoop_eq srv.uploadResp.body.id pend term rest hp ht hnt
  simp [parseFile, uploadFile, hup, hs, hpoll, hterm, getMarkdownResult, hres]

theorem parseFile_eq_of_failed (srv : Server) (pend : List (HttpResp JobStatus))
    (term : HttpResp JobStatus) (rest : List (HttpResp JobStatus))
    (hup : srv.uploadResp.ok = true)
    (hs : srv.statusResps = pend ++ term :: rest)
    (hp : ∀ r ∈ pend, r.ok = true ∧ r.body.status = Status.PENDING)
    (ht : term.ok = true) (hterm : term.body.status = Status.FAILED) :
    parseFile srv =
      (Ev.upload :: pollEvs pend.length srv.uploadResp.body.id,
       some (Except.error (LPError.ParseFailedError
         ("Parsing failed: " ++ jsTemplateStr term.body.error)))) := by
  have hnt : term.body.status ≠ Status.PENDING := by
    rw [hterm]; intro h; cases h
  have hpoll := pollLoop_eq srv.uploadResp.body.id pend term rest hp ht hnt
  simp [parseFile, uploadFile, hup, hs, hpoll, hterm]

/-! ## Concrete mock data used by witnesses and counterexamples -/

/-- A sample markdown result body. -/
def mdResultSample : MarkdownResult :=
  { markdown := "# Title",
    job_metadata :=
      { credits_used := 1, job_credits_usage := 1, job_pages := 1,
        job_auto_mode_triggered_pages := 0, job_is_cache_hit := false,
        credits_max := 100 } }

/-- A 2xx status response reporting PENDING. -/
def okPending : HttpResp JobStatus :=
  { status := 200, statusText := "OK", body := { status := Status.PENDING, error := none } }

/-- A 2xx status response reporting SUCCESS. -/
def okSuccess : HttpResp JobStatus :=
  { status := 200, statusText := "OK", body := { status := Status.SUCCESS, error := none } }

/-- A 2xx status response reporting FAILED with error `"bad scan"`. -/
def okFailedBadScan : HttpResp JobStatus :=
  { status := 200, statusText := "OK",
    body := { status := Status.FAILED, error := some "bad scan" } }

/-- A 2xx upload response whose JSON body carries id `"job-1"`. -/
def okUploadJob1 : HttpResp UploadResponse :=
  { status := 200, statusText := "OK", body := { id := "job-1", status := Status.PENDING } }

/-- A 2xx upload response whose JSON body carries an empty id. -/
def okUploadEmptyId : HttpResp UploadResponse :=
  { status := 200, statusText := "OK", body := { id := "", status := Status.PENDING } }

/-- A 2xx result response carrying the sample markdown result. -/
def okResultSample : HttpResp MarkdownResult :=
  { status := 200, statusText := "OK", body := mdResultSample }

/-- Mock server: upload succeeds with id `"job-1"`, statuses PENDING,
PENDING, SUCCESS, result succeeds. -/
def srvPPS : Server :=
  { uploadResp := okUploadJob1,
    statusResps := [okPending, okPending, okSuccess],
    resultResp := okResultSample }

/-- Mock server: upload succeeds, statuses PENDING then FAILED (`"bad scan"`). -/
def srvFailed : Server :=
  { uploadResp := okUploadJob1,
    statusResps := [okPending, okFailedBadScan],
    resultResp := okResultSample }

/-- Mock server whose upload response carries an empty job id. -/
def srvEmptyId : Server :=
  { uploadResp := okUploadEmptyId,
    statusResps := [okSuccess],
    resultResp := okResultSample }

/-! ## Claim theorems -/

/-- C1: when `parseFile` runs against a server whose successive status
responses are some number of HTTP-successful PENDING responses followed by an
HTTP-successful SUCCESS response, with successful upload and result responses,
the number of `checkStatus` calls equals the number of PENDING responses plus
one, the result-fetch operation is called exactly once, and the run resolves
with the fetched result.  For PENDING, PENDING, SUCCESS this gives exactly
three `checkStatus` calls. -/
theorem parseFile_poll_count (srv : Server) (pend : List (HttpResp JobStatus))
    (term : HttpResp JobStatus) (rest : List (HttpResp JobStatus))
    (hup : srv.uploadResp.ok = true)
    (hs : srv.statusResps = pend ++ term :: rest)
    (hp : ∀ r ∈ pend, r.ok = true ∧ r.body.status = Status.PENDING)
    (ht : term.ok = true) (hterm : term.body.status = Status.SUCCESS)
    (hres : srv.resultResp.ok = true) :
    countCheck (parseFile srv).1 = pend.length + 1 ∧
    countResult (parseFile srv).1 = 1 ∧
    (parseFile srv).2 = some (Except.ok srv.resultResp.body) := by
  rw [parseFile_eq_of_success srv pend term rest hup hs hp ht hterm hres]
  refine ⟨?_, ?_, rfl⟩
  · rw [countCheck_upload_cons, countCheck_append, countCheck_pollEvs]
    simp [countCheck, isCheckEv]
  · rw [countResult_upload_cons, countResult_append, countResult_pollEvs]
    simp [countResult, isResultEv]

/-- C1 witness: against the PENDING, PENDING, SUCCESS mock server,
`parseFile` makes exactly three `checkStatus` calls, one result fetch, and
resolves with the result body. -/
theorem parseFile_poll_count_witness :
    countCheck (parseFile srvPPS).1 = 3 ∧
    countResult (parseFile srvPPS).1 = 1 ∧
    (parseFile srvPPS).2 = some (Except.ok srvPPS.resultResp.body) :=
  parseFile_poll_count srvPPS [okPending, okPending] okSuccess []
    (by decide) rfl (by decide) (by decide) rfl (by decide)

/-- C2: when the first non-PENDING status observed is FAILED with a
server-reported error message `e` (all responses up to it HTTP-successful),
`parseFile` raises `ParseFailedError` whose message contains `e`, and the
result endpoint is never called in that run. -/
theorem parseFile_failed_raises (srv : Server) (pend : List (HttpResp JobStatus))
    (term : HttpResp JobStatus) (rest : List (HttpResp JobStatus)) (e : String)
    (hup : srv.uploadResp.ok = true)
    (hs : srv.statusResps = pend ++ term :: rest)
    (hp : ∀ r ∈ pend, r.ok = true ∧ r.body.status = Status.PENDING)
    (ht : term.ok = true) (hterm : term.body.status = Status.FAILED)
    (herr : term.body.error = some e) :
    (∃ pre suf, (parseFile srv).2 =
      some (Except.error (LPError.ParseFailedError (pre ++ e ++ suf)))) ∧
    countResult (parseFile srv).1 = 0 := by
  rw [parseFile_eq_of_failed srv pend term rest hup hs hp ht hterm]
  refine ⟨⟨"Parsing failed: ", "", ?_⟩, ?_⟩
  · simp [herr, jsTemplateStr]
  · rw [countResult_upload_cons, countResult_pollEvs]

/-- C2 witness: against the mock server returning PENDING then FAILED with
`error: "bad scan"`, `parseFile` raises `ParseFailedError` containing
`"bad scan"` and never calls the result endpoint. -/
theorem parseFile_failed_raises_witness :
    (∃ pre suf, (parseFile srvFailed).2 =
      some (Except.error (LPError.ParseFailedError (pre ++ "bad scan" ++ suf)))) ∧
    countResult (parseFile srvFailed).1 = 0 :=
  parseFile_failed_raises srvFailed [okPending] okFailedBadScan [] "bad scan"
    (by decide) rfl (by decide) (by decide) rfl rfl

theorem everyCheckDelayed_upload_cons (l : List Ev) :
    everyCheckDelayed (Ev.upload :: l) = everyCheckDelayed l := rfl

theorem getLast?_pollEvs (n : Nat) (j : String) :
    (pollEvs n j).getLast? = some Ev.delay ∧
    ∀ a : Ev, (a :: pollEvs n j).getLast? = some Ev.delay := by
  induction n with
  | zero => exact ⟨rfl, fun a => rfl⟩
  | succ n ih =>
    constructor
    · rw [pollEvs, List.getLast?_cons_cons]
      exact ih.2 Ev.delay
    · intro a
      rw [pollEvs, List.getLast?_cons_cons, List.getLast?_cons_cons]
      exact ih.2 Ev.delay

theorem parseFile_trace_of_nonpending (srv : Server) (pend : List (HttpResp JobStatus))
    (term : HttpResp JobStatus) (rest : List (HttpResp JobStatus))
    (hup : srv.uploadResp.ok = true)
    (hs : srv.statusResps = pend ++ term :: rest)
    (hp : ∀ r ∈ pend, r.ok = true ∧ r.body.status = Status.PENDING)
    (ht : term.ok = true) (hnt : term.body.status ≠ Status.PENDING) :
    (parseFile srv).1 = Ev.upload :: pollEvs pend.length srv.uploadResp.body.id ∨
    (parseFile srv).1 = Ev.upload :: (pollEvs pend.length srv.uploadResp.body.id ++
      [Ev.getResult srv.uploadResp.body.id]) := by
  have hpoll := pollLoop_eq srv.uploadResp.body.id pend term rest hp ht hnt
  by_cases hsucc : term.body.status = Status.SUCCESS
  · right
    cases hr : getMarkdownResult srv.resultResp with
    | error e => simp [parseFile, uploadFile, hup, hs, hpoll, hsucc, hr]
    | ok res => simp [parseFile, uploadFile, hup, hs, hpoll, hsucc, hr]
  · left
    simp [parseFile, uploadFile, hup, hs, hpoll, hsucc]

/-- C10: in every `parseFile` run whose upload succeeds and whose status
responses are HTTP-successful PENDINGs followed by an HTTP-successful
terminal (SUCCESS or FAILED) response, the fixed 1-second delay is executed
after every `checkStatus` call — also after the call observing the terminal
status: every `checkStatus` event is immediately followed by a delay event,
delays and `checkStatus` calls are equinumerous, and when the result is
fetched the fetch is preceded by a trace ending in a delay. -/
theorem parseFile_delay_each_check (srv : Server) (pend : List (HttpResp JobStatus))
    (term : HttpResp JobStatus) (rest : List (HttpResp JobStatus))
    (hup : srv.uploadResp.ok = true)
    (hs : srv.statusResps = pend ++ term :: rest)
    (hp : ∀ r ∈ pend, r.ok = true ∧ r.body.status = Status.PENDING)
    (ht : term.ok = true) (hnt : term.body.status ≠ Status.PENDING) :
    everyCheckDelayed (parseFile srv).1 = true ∧
    countDelay (parseFile srv).1 = countCheck (parseFile srv).1 ∧
    (countResult (parseFile srv).1 = 0 ∨
      ∃ l, (parseFile srv).1 = l ++ [Ev.getResult srv.uploadResp.body.id] ∧
        l.getLast? = some Ev.delay) := by
  rcases parseFile_trace_of_nonpending srv pend term rest hup hs hp ht hnt with h | h
  · rw [h]
    refine ⟨?_, ?_, Or.inl ?_⟩
    · rw [everyCheckDelayed_upload_cons]
      have := everyCheckDelayed_pollEvs_append pend.length srv.uploadResp.body.id []
      simpa using this
    · rw [countDelay_upload_cons, countCheck_upload_cons,
        countDelay_pollEvs, countCheck_pollEvs]
    · rw [countResult_upload_cons, countResult_pollEvs]
  · rw [h]
    refine ⟨?_, ?_, Or.inr ?_⟩
    · rw [everyCheckDelayed_upload_cons,
        everyCheckDelayed_pollEvs_append pend.length srv.uploadResp.body.id]
      rfl
    · rw [countDelay_upload_cons, countCheck_upload_cons,
        countDelay_append, countCheck_append, countDelay_pollEvs, countCheck_pollEvs]
      simp [countDelay, countCheck, isDelayEv, isCheckEv]
    · refine ⟨Ev.upload :: pollEvs pend.length srv.uploadResp.body.id, by simp, ?_⟩
      exact (getLast?_pollEvs pend.length srv.uploadResp.body.id).2 Ev.upload

/-- C10 witness: against the PENDING-then-FAILED mock server every
`checkStatus` call is immediately followed by a delay and delays equal
checks in number. -/
theorem parseFile_delay_each_check_witness :
    everyCheckDelayed (parseFile srvFailed).1 = true ∧
    countDelay (parseFile srvFailed).1 = countCheck (parseFile srvFailed).1 ∧
    (countResult (parseFile srvFailed).1 = 0 ∨
      ∃ l, (parseFile srvFailed).1 = l ++ [Ev.getResult srvFailed.uploadResp.body.id] ∧
        l.getLast? = some Ev.delay) :=
  parseFile_delay_each_check srvFailed [okPending] okFailedBadScan []
    (by decide) rfl (by decide) (by decide) (by decide)

theorem strFalsy_iff (o : Option String) :
    strFalsy o = true ↔ (o = none ∨ o = some "") := by
  cases o with
  | none => simp [strFalsy]
  | some s => simp [strFalsy]

/-- C3: constructing a client fails with `ConfigError` exactly when the
config's API key is missing or the empty string, and succeeds exactly when
the API key is a non-empty string. -/
theorem construct_apiKey_check (cfg : LlamaParseConfig) :
    (LlamaParse.construct cfg = Except.error (LPError.ConfigError "API key is required") ↔
      (cfg.apiKey = none ∨ cfg.apiKey = some "")) ∧
    ((∃ c, LlamaParse.construct cfg = Except.ok c) ↔
      ¬(cfg.apiKey = none ∨ cfg.apiKey = some "")) := by
  cases hb : strFalsy cfg.apiKey with
  | true =>
    have h1 : cfg.apiKey = none ∨ cfg.apiKey = some "" := (strFalsy_iff cfg.apiKey).mp hb
    constructor
    · simp [LlamaParse.construct, hb, h1]
    · simp [LlamaParse.construct, hb, h1]
  | false =>
    have h1 : ¬(cfg.apiKey = none ∨ cfg.apiKey = some "") := by
      intro h
      rw [(strFalsy_iff cfg.apiKey).mpr h] at hb
      cases hb
    constructor
    · simp [LlamaParse.construct, hb, h1]
    · simp [LlamaParse.construct, hb, h1]

/-- C9: when the config's baseUrl is the empty string (and the API key is a
non-empty string), construction succeeds and uses the default base URL
`https://api.cloud.llamaindex.ai/api/parsing` — the same base URL as when
baseUrl is omitted. -/
theorem construct_empty_baseUrl_default (cfg : LlamaParseConfig) (a : String)
    (ha : cfg.apiKey = some a) (hne : a ≠ "")
    (hb : cfg.baseUrl = some "") :
    ∃ c c2, LlamaParse.construct cfg = Except.ok c ∧
      LlamaParse.construct { cfg with baseUrl := none } = Except.ok c2 ∧
      c.baseUrl = defaultBaseUrl ∧ c2.baseUrl = c.baseUrl := by
  have hk : ¬(strFalsy cfg.apiKey = true) := by
    simp [strFalsy, ha, hne]
  have h1 : LlamaParse.construct cfg =
      Except.ok { baseUrl := defaultBaseUrl,
                  headers := mergeHeaders (defaultHeaders a) (cfg.headers.getD []) } := by
    rw [LlamaParse.construct, if_neg hk]
    simp [hb, strFalsy, ha]
  have h2 : LlamaParse.construct { cfg with baseUrl := none } =
      Except.ok { baseUrl := defaultBaseUrl,
                  headers := mergeHeaders (defaultHeaders a) (cfg.headers.getD []) } := by
    rw [LlamaParse.construct, if_neg (by simpa using hk)]
    simp [strFalsy, ha]
  exact ⟨_, _, h1, h2, rfl, rfl⟩

/-- A config with a valid key and an empty-string baseUrl. -/
def cfgEmptyBase : LlamaParseConfig :=
  { apiKey := some "key", baseUrl := some "", headers := none }

/-- C9 witness: the concrete config with `baseUrl = ""` constructs a client
with the default base URL, matching the omitted-baseUrl construction. -/
theorem construct_empty_baseUrl_default_witness :
    ∃ c c2, LlamaParse.construct cfgEmptyBase = Except.ok c ∧
      LlamaParse.construct { cfgEmptyBase with baseUrl := none } = Except.ok c2 ∧
      c.baseUrl = defaultBaseUrl ∧ c2.baseUrl = c.baseUrl :=
  construct_empty_baseUrl_default cfgEmptyBase "key" rfl (by decide) rfl

theorem find?_merged_defaults_none (ds cs : List (String × String)) (k : String)
    (h : ∃ c ∈ cs, c.1 = k) :
    (ds.filter (fun d => cs.all (fun c => c.1 != d.1))).find? (fun p => p.1 == k) = none := by
  rw [List.find?_eq_none]
  intro x hx hpk
  obtain ⟨c, hc, hck⟩ := h
  rw [List.mem_filter] at hx
  have hxk : x.1 = k := by simpa using hpk
  have hall := List.all_eq_true.mp hx.2 c hc
  rw [hxk, hck] at hall
  simp at hall

theorem headerValue_mergeHeaders_caller (ds cs : List (String × String)) (k v : String)
    (h : headerValue cs k = some v) :
    headerValue (mergeHeaders ds cs) k = some v := by
  have hex : ∃ c ∈ cs, c.1 = k := by
    rw [headerValue] at h
    cases hf : cs.find? (fun p => p.1 == k) with
    | none => rw [hf] at h; cases h
    | some p =>
      refine ⟨p, List.mem_of_find?_eq_some hf, ?_⟩
      simpa using List.find?_some hf
  rw [mergeHeaders, headerValue, List.find?_append,
    find?_merged_defaults_none ds cs k hex, Option.none_or]
  exact h

theorem find?_merged_defaults_no_key (ds cs : List (String × String)) (k : String)
    (h : ∀ c ∈ cs, c.1 ≠ k) :
    (ds.filter (fun d => cs.all (fun c => c.1 != d.1))).find? (fun p => p.1 == k) =
      ds.find? (fun p => p.1 == k) := by
  induction ds with
  | nil => rfl
  | cons d ds ih =>
    by_cases hdk : d.1 = k
    · have hkeep : (cs.all fun c => c.1 != d.1) = true := by
        rw [List.all_eq_true]
        intro c hc
        simp [hdk, h c hc]
      simp only [List.filter_cons]
      rw [if_pos hkeep]
      simp [List.find?_cons, hdk]
    · by_cases hkeep : (cs.all fun c => c.1 != d.1) = true
      · simp only [List.filter_cons]
        rw [if_pos hkeep]
        simp [List.find?_cons, hdk, ih]
      · simp only [List.filter_cons]
        rw [if_neg hkeep]
        simp [List.find?_cons, hdk, ih]

theorem headerValue_mergeHeaders_no_caller (ds cs : List (String × String)) (k : String)
    (h : headerValue cs k = none) :
    headerValue (mergeHeaders ds cs) k = headerValue ds k := by
  have hnone : cs.find? (fun p => p.1 == k) = none := by
    rw [headerValue] at h
    exact Option.map_eq_none'.mp h
  have hno : ∀ c ∈ cs, c.1 ≠ k := by
    intro c hc
    simpa using List.find?_eq_none.mp hnone c hc
  rw [mergeHeaders, headerValue, List.find?_append, hnone, Option.or_none,
    find?_merged_defaults_no_key ds cs k hno, headerValue]

/-- C4: when construction succeeds on a config with caller-supplied headers,
the client's header map is the merge of the defaults (bearer Authorization,
accept application/json) with the caller's headers, caller values winning on
key collision — any key the caller supplies keeps the caller's value in the
client headers and in the headers of every subsequent request (upload,
status, result), and any key the caller does not supply falls back to the
default headers' value. -/
theorem construct_caller_header_precedence (cfg : LlamaParseConfig) (c : LlamaParse)
    (a : String) (hdrs : List (String × String)) (k v jobId : String)
    (ha : cfg.apiKey = some a)
    (hh : cfg.headers = some hdrs)
    (hc : LlamaParse.construct cfg = Except.ok c) :
    (headerValue hdrs k = some v →
      headerValue c.headers k = some v ∧
      headerValue c.uploadRequest.headers k = some v ∧
      headerValue (c.statusRequest jobId).headers k = some v ∧
      headerValue (c.resultRequest jobId).headers k = some v) ∧
    (headerValue hdrs k = none →
      headerValue c.headers k = headerValue (defaultHeaders a) k) := by
  have hkf : ¬(strFalsy cfg.apiKey = true) := by
    intro hb
    rw [LlamaParse.construct, if_pos hb] at hc
    cases hc
  have hch : c.headers = mergeHeaders (defaultHeaders a) hdrs := by
    rw [LlamaParse.construct, if_neg hkf] at hc
    injection hc with h
    rw [← h]
    simp [ha, hh]
  constructor
  · intro hv
    have hm := headerValue_mergeHeaders_caller (defaultHeaders a) hdrs k v hv
    rw [← hch] at hm
    exact ⟨hm, hm, hm, hm⟩
  · intro hn
    have hm := headerValue_mergeHeaders_no_caller (defaultHeaders a) hdrs k hn
    rw [← hch] at hm
    exact hm

/-- A config with a caller-supplied Authorization header. -/
def cfgCustomAuth : LlamaParseConfig :=
  { apiKey := some "key", baseUrl := none, headers := some [("Authorization", "custom")] }

/-- The client constructed from `cfgCustomAuth`. -/
def clientCustomAuth : LlamaParse :=
  { baseUrl := defaultBaseUrl,
    headers := mergeHeaders (defaultHeaders "key") [("Authorization", "custom")] }

/-- C4 witness: a caller-supplied `Authorization` header overrides the
default bearer header in the client headers and in the status request, while
the unsupplied `accept` header keeps its default value. -/
theorem construct_caller_header_precedence_witness :
    headerValue clientCustomAuth.headers "Authorization" = some "custom" ∧
    headerValue (clientCustomAuth.statusRequest "job-1").headers "Authorization" = some "custom" ∧
    headerValue clientCustomAuth.headers "accept" =
      headerValue (defaultHeaders "key") "accept" :=
  let h := construct_caller_header_precedence cfgCustomAuth clientCustomAuth "key"
    [("Authorization", "custom")] "Authorization" "custom" "job-1" rfl rfl rfl
  let h2 := construct_caller_header_precedence cfgCustomAuth clientCustomAuth "key"
    [("Authorization", "custom")] "accept" "" "job-1" rfl rfl rfl
  ⟨(h.1 (by decide)).1, (h.1 (by decide)).2.2.1, h2.2 (by decide)⟩

/-- C5: for every HTTP response to the upload request, a non-2xx response
makes `uploadFile` raise `UploadError` whose message contains the response's
status text, and a 2xx response makes it return exactly the `id` field of
the JSON body. -/
theorem uploadFile_resp (r : HttpResp UploadResponse) :
    (200 ≤ r.status ∧ r.status ≤ 299 → uploadFile r = Except.ok r.body.id) ∧
    (¬(200 ≤ r.status ∧ r.status ≤ 299) →
      ∃ pre suf, uploadFile r =
        Except.error (LPError.UploadError (pre ++ r.statusText ++ suf))) := by
  constructor
  · intro h
    simp [uploadFile, HttpResp.ok, h.1, h.2]
  · intro h
    refine ⟨"Upload failed: ", "", ?_⟩
    simp [uploadFile, HttpResp.ok, h, String.append_empty]

/-- A 2xx upload response used by the C5 witness. -/
def upRespOk : HttpResp UploadResponse :=
  { status := 201, statusText := "Created", body := { id := "job-7", status := Status.PENDING } }

/-- A non-2xx upload response used by the C5 witness. -/
def upRespBad : HttpResp UploadResponse :=
  { status := 500, statusText := "Internal Server Error",
    body := { id := "", status := Status.FAILED } }

/-- C5 witness: a 201 response returns the body's id, a 500 response raises
`UploadError` containing `"Internal Server Error"`. -/
theorem uploadFile_resp_witness :
    uploadFile upRespOk = Except.ok "job-7" ∧
    (∃ pre suf, uploadFile upRespBad =
      Except.error (LPError.UploadError (pre ++ "Internal Server Error" ++ suf))) :=
  ⟨(uploadFile_resp upRespOk).1 (by decide), (uploadFile_resp upRespBad).2 (by decide)⟩

/-- C6: for every 2xx status response, `checkStatus` returns exactly the
body's `status` and `error` fields unchanged; for every non-2xx response it
raises `StatusCheckError`. -/
theorem checkStatus_resp (r : HttpResp JobStatus) :
    (200 ≤ r.status ∧ r.status ≤ 299 →
      checkStatus r = Except.ok { status := r.body.status, error := r.body.error }) ∧
    (¬(200 ≤ r.status ∧ r.status ≤ 299) →
      ∃ msg, checkStatus r = Except.error (LPError.StatusCheckError msg)) := by
  constructor
  · intro h
    simp [checkStatus, HttpResp.ok, h.1, h.2]
  · intro h
    exact ⟨"Status check failed: " ++ r.statusText, by simp [checkStatus, HttpResp.ok, h]⟩

/-- A 2xx status response with both fields set, used by the C6 witness. -/
def stRespOk : HttpResp JobStatus :=
  { status := 200, statusText := "OK",
    body := { status := Status.FAILED, error := some "bad scan" } }

/-- A non-2xx status response used by the C6 witness. -/
def stRespBad : HttpResp JobStatus :=
  { status := 404, statusText := "Not Found",
    body := { status := Status.PENDING, error := none } }

/-- C6 witness: a 200 response round-trips `{status := FAILED, error :=
some "bad scan"}` unchanged; a 404 response raises `StatusCheckError`. -/
theorem checkStatus_resp_witness :
    checkStatus stRespOk = Except.ok { status := Status.FAILED, error := some "bad scan" } ∧
    (∃ msg, checkStatus stRespBad = Except.error (LPError.StatusCheckError msg)) :=
  ⟨(checkStatus_resp stRespOk).1 (by decide), (checkStatus_resp stRespBad).2 (by decide)⟩

/-- C7: the result request is a GET of `{baseUrl}/job/{jobId}/result/markdown`;
on every non-2xx response `getMarkdownResult` fails with `ResultFetchError`
whose message contains the HTTP status text, and on a 2xx response it returns
the parsed markdown result. -/
theorem getResult_resp (c : LlamaParse) (jobId : String) (r : HttpResp MarkdownResult) :
    (c.resultRequest jobId).method = "GET" ∧
    (c.resultRequest jobId).url = c.baseUrl ++ "/job/" ++ jobId ++ "/result/markdown" ∧
    (¬(200 ≤ r.status ∧ r.status ≤ 299) →
      ∃ pre suf, getMarkdownResult r =
        Except.error (LPError.ResultFetchError (pre ++ r.statusText ++ suf))) ∧
    (200 ≤ r.status ∧ r.status ≤ 299 → getMarkdownResult r = Except.ok r.body) := by
  refine ⟨rfl, rfl, ?_, ?_⟩
  · intro h
    refine ⟨"Failed to get results: ", "", ?_⟩
    simp [getMarkdownResult, HttpResp.ok, h, String.append_empty]
  · intro h
    simp [getMarkdownResult, HttpResp.ok, h.1, h.2]

/-- A client used by the C7 witness. -/
def clientPlain : LlamaParse :=
  { baseUrl := defaultBaseUrl, headers := defaultHeaders "key" }

/-- A non-2xx result response used by the C7 witness. -/
def mdRespBad : HttpResp MarkdownResult :=
  { status := 502, statusText := "Bad Gateway", body := mdResultSample }

/-- C7 witness: the result request URL is as specified and a 502 response
raises `ResultFetchError` containing `"Bad Gateway"`. -/
theorem getResult_resp_witness :
    (clientPlain.resultRequest "job-1").method = "GET" ∧
    (clientPlain.resultRequest "job-1").url =
      clientPlain.baseUrl ++ "/job/" ++ "job-1" ++ "/result/markdown" ∧
    (∃ pre suf, getMarkdownResult mdRespBad =
      Except.error (LPError.ResultFetchError (pre ++ "Bad Gateway" ++ suf))) :=
  let h := getResult_resp clientPlain "job-1" mdRespBad
  ⟨h.1, h.2.1, h.2.2.1 (by decide)⟩

/-- C8 counterexample: the claim says that when the upload response yields an
empty id, no status or result call is made with it; against `srvEmptyId`
(whose upload body has `id = ""`) the run makes both a `checkStatus` and a
result-fetch call with the empty id. -/
theorem parseFile_empty_id_counterexample :
    srvEmptyId.uploadResp.body.id = "" ∧
    Ev.checkStatus "" ∈ (parseFile srvEmptyId).1 ∧
    Ev.getResult "" ∈ (parseFile srvEmptyId).1 := by
  refine ⟨rfl, ?_, ?_⟩ <;> decide

/-- C8 (amended): `parseFile` performs no emptiness check on the job id: in
every run whose upload response is HTTP-successful and against which at
least one status response is served, a `checkStatus` call is made with
exactly the id taken from the upload response body — the empty string
included. -/
theorem parseFile_proceeds_with_any_id (srv : Server) (r0 : HttpResp JobStatus)
    (rs : List (HttpResp JobStatus))
    (hup : srv.uploadResp.ok = true)
    (hs : srv.statusResps = r0 :: rs) :
    Ev.checkStatus srv.uploadResp.body.id ∈ (parseFile srv).1 := by
  have hmem : Ev.checkStatus srv.uploadResp.body.id ∈
      (pollLoop srv.uploadResp.body.id (r0 :: rs)).1 := by
    cases hcs : checkStatus r0 with
    | error e => simp [pollLoop, hcs]
    | ok st =>
      by_cases hpd : st.status = Status.PENDING
      · simp [pollLoop, hcs, hpd]
      · simp [pollLoop, hcs, hpd]
  have hid : uploadFile srv.uploadResp = Except.ok srv.uploadResp.body.id := by
    simp [uploadFile, hup]
  simp only [parseFile, hid, hs]
  split
  · simp [hmem]
  · simp [hmem]
  · split
    · simp [hmem]
    · split
      · simp [hmem]
      · simp [hmem]

/-- C8 (amended) witness: against `srvEmptyId` the status call is made with
the empty id from the upload body. -/
theorem parseFile_proceeds_with_any_id_witness :
    Ev.checkStatus "" ∈ (parseFile srvEmptyId).1 :=
  parseFile_proceeds_with_any_id srvEmptyId okSuccess [] (by decide) rfl
